import Mathlib

/-!
# Verification of the pointercrate ETag module (`src/etag.rs`)

The module defines a trait `Taggable: Hash` with three methods

* `get_part(&self) -> u64` — hash the complete object with
  `std::collections::hash_map::DefaultHasher` (SipHash-1-3 with zero keys);
* `patch_part(&self) -> u64` — defaults to `self.get_part()`; entities whose
  `PATCH` endpoint modifies only a subset of fields override it;
* `etag_string(&self) -> String` — `format!("{};{}", patch_part, get_part)`;

and an extension trait `HttpResponseBuilderEtagExt` on actix-web's
`HttpResponseBuilder` with

* `etag(obj)` — `self.header("ETag", obj.etag_string())`;
* `json_with_etag(obj)` — `self.etag(obj).json(json!({ "data": obj }))`.

We embed the module shallowly.  A Rust `Hash` implementation is modelled as the
byte stream the entity feeds into the hasher (`E → List Nat`, each entry a
byte); `DefaultHasher` is modelled bit-exactly as SipHash-1-3 with both keys
zero, on `Nat` with explicit reduction modulo `2 ^ 64`.  The collaborators that
live outside this repository (actix-web's response builder, serde
serialization) are modelled from the spec, as marked in their doc comments.
-/

/-! ## Model of `std::collections::hash_map::DefaultHasher` (SipHash-1-3) -/

/-- Reduce a value to the 64-bit range, as every `u64` operation in the hasher
does implicitly. -/
def wrap64 (x : Nat) : Nat :=
  x % 2 ^ 64

/-- 64-bit left rotation. -/
def rotl64 (x n : Nat) : Nat :=
  wrap64 (x <<< n) ||| (x >>> (64 - n))

/-- The four 64-bit words of the SipHash internal state. -/
structure SipState where
  v0 : Nat
  v1 : Nat
  v2 : Nat
  v3 : Nat

/-- One SipHash round. -/
def sipRound (s : SipState) : SipState :=
  let v0 := wrap64 (s.v0 + s.v1)
  let v1 := rotl64 s.v1 13
  let v1 := v1 ^^^ v0
  let v0 := rotl64 v0 32
  let v2 := wrap64 (s.v2 + s.v3)
  let v3 := rotl64 s.v3 16
  let v3 := v3 ^^^ v2
  let v2 := wrap64 (v2 + v1)
  let v1 := rotl64 v1 17
  let v1 := v1 ^^^ v2
  let v2 := rotl64 v2 32
  let v0 := wrap64 (v0 + v3)
  let v3 := rotl64 v3 21
  let v3 := v3 ^^^ v0
  ⟨v0, v1, v2, v3⟩

/-- Initial SipHash state for keys `k0 = k1 = 0`, which is what
`DefaultHasher::new()` uses. -/
def sipInit : SipState :=
  ⟨0x736f6d6570736575, 0x646f72616e646f6d, 0x6c7967656e657261, 0x7465646279746573⟩

/-- Little-endian interpretation of a byte list as a natural number. -/
def leWord (bytes : List Nat) : Nat :=
  bytes.foldr (fun b acc => b + 256 * acc) 0

/-- Absorb one 64-bit message word (SipHash-1-3: one compression round). -/
def sipCompress (s : SipState) (m : Nat) : SipState :=
  let s := { s with v3 := s.v3 ^^^ m }
  let s := sipRound s
  { s with v0 := s.v0 ^^^ m }

/-- SipHash finalization: absorb the last (partial) word together with the
total length modulo 256 in the top byte, then three finalization rounds. -/
def sipFinish (s : SipState) (tail : List Nat) (len : Nat) : Nat :=
  let b := wrap64 ((len % 256) <<< 56) ||| leWord tail
  let s := sipCompress s b
  let s := { s with v2 := s.v2 ^^^ 0xff }
  let s := sipRound (sipRound (sipRound s))
  s.v0 ^^^ s.v1 ^^^ s.v2 ^^^ s.v3

/-- Consume the byte stream eight bytes at a time, then finalize. -/
def sipProcess (s : SipState) (bytes : List Nat) (len : Nat) : Nat :=
  match bytes with
  | b0 :: b1 :: b2 :: b3 :: b4 :: b5 :: b6 :: b7 :: rest =>
      sipProcess (sipCompress s (leWord [b0, b1, b2, b3, b4, b5, b6, b7])) rest len
  | tail => sipFinish s tail len

/-- Model of hashing a byte stream with `DefaultHasher`: `DefaultHasher::new()`
followed by writing the stream and `finish()`.  The result is a `u64`, hence
the explicit reduction modulo `2 ^ 64`. -/
def defaultHasherFinish (bytes : List Nat) : Nat :=
  wrap64 (sipProcess sipInit bytes bytes.length)

/-! ## The `Taggable` trait

A Rust `impl Taggable for E` is a choice of `Hash` implementation (the byte
stream fed to the hasher) plus, optionally, an override of `patch_part`.  The
default method body `patch_part(&self) { self.get_part() }` becomes the default
value of the `patch_part` field. -/

/-- Model of an `impl Taggable for E`.  `hash` is the entity's `Hash`
implementation, i.e. the byte stream `e` feeds into any hasher; `patch_part`
is the trait method, whose default body returns `get_part`, i.e. the
`DefaultHasher` digest of the full stream. -/
structure Taggable (E : Type) where
  hash : E → List Nat
  patch_part : E → Nat := fun e => defaultHasherFinish (hash e)

/-- `Taggable::get_part`: hash the complete state with `DefaultHasher`. -/
def Taggable.get_part {E : Type} (t : Taggable E) (e : E) : Nat :=
  defaultHasherFinish (t.hash e)

/-- An `impl Taggable for E` that keeps the trait's default `patch_part`. -/
def Taggable.mkDefault {E : Type} (h : E → List Nat) : Taggable E :=
  { hash := h }

/-! ## Decimal formatting

`etag_string` uses `format!("{};{}", ..)`;  `{}` on a `u64` prints the
canonical decimal representation (digits only, no sign, no leading zeros,
`"0"` for zero).  We model that formatter explicitly. -/

/-- The decimal digit character for `d < 10`. -/
def digitChar (d : Nat) : Char :=
  Char.ofNat (48 + d)

/-- Canonical decimal digit list of a natural number, most significant digit
first; model of `u64`'s `Display` implementation. -/
def decimalDigits (n : Nat) : List Char :=
  if _h : n < 10 then [digitChar n]
  else decimalDigits (n / 10) ++ [digitChar (n % 10)]
decreasing_by
  exact Nat.div_lt_self (by omega) (by omega)

/-- Canonical decimal string of a natural number. -/
def decimal (n : Nat) : String :=
  ⟨decimalDigits n⟩

/-- `Taggable::etag_string`: `format!("{};{}", patch_part, get_part)`. -/
def Taggable.etag_string {E : Type} (t : Taggable E) (e : E) : String :=
  decimal (t.patch_part e) ++ ";" ++ decimal (t.get_part e)

/-! ## The response-builder and serialization collaborators -/

/-- Modelled from the spec: a JSON value, the output type of the serialization
collaborator (serde / `serde_json::Value`), which is outside this repository.
Only the shape of objects matters here. -/
inductive Json where
  | null : Json
  | bool : Bool → Json
  | num : Int → Json
  | str : String → Json
  | arr : List Json → Json
  | obj : List (String × Json) → Json

/-- The top-level keys of a JSON value, when it is an object. -/
def Json.topLevelKeys : Json → Option (List String)
  | Json.obj fields => some (fields.map (fun p => p.1))
  | _ => none

/-- Look up a top-level field of a JSON object. -/
def Json.getField : Json → String → Option Json
  | Json.obj fields, k => (fields.find? (fun p => p.1 == k)).map (fun p => p.2)
  | _, _ => none

/-- Modelled from the spec: actix-web's `HttpResponseBuilder` (outside this
repository), reduced to the one capability the module consumes — an ordered
list of (name, value) header pairs to which `header(name, value)` appends. -/
structure HttpResponseBuilder where
  headers : List (String × String)

/-- Modelled from the spec: `HttpResponseBuilder::header` appends a header
pair to the in-progress response. -/
def HttpResponseBuilder.header (b : HttpResponseBuilder) (name value : String) :
    HttpResponseBuilder :=
  { headers := b.headers ++ [(name, value)] }

/-- Modelled from the spec: a finalized response — its headers and JSON
body. -/
structure HttpResponse where
  headers : List (String × String)
  body : Json

/-- Modelled from the spec: `HttpResponseBuilder::json` finalizes the response
with the given JSON body. -/
def HttpResponseBuilder.json (b : HttpResponseBuilder) (v : Json) : HttpResponse :=
  { headers := b.headers, body := v }

/-- `HttpResponseBuilderEtagExt::etag`:
`self.header("ETag", obj.etag_string())`. -/
def HttpResponseBuilder.etag {E : Type} (b : HttpResponseBuilder) (t : Taggable E)
    (e : E) : HttpResponseBuilder :=
  b.header "ETag" (t.etag_string e)

/-- `HttpResponseBuilderEtagExt::json_with_etag`:
`self.etag(obj).json(serde_json::json!({ "data": obj }))`.  The `Serialize`
bound is modelled from the spec as a fallible serializer `ser`; per the spec a
serialization failure is surfaced to the caller unchanged. -/
def HttpResponseBuilder.json_with_etag {E : Type} (b : HttpResponseBuilder)
    (t : Taggable E) (ser : E → Except String Json) (e : E) :
    Except String HttpResponse :=
  match ser e with
  | Except.error err => Except.error err
  | Except.ok v => Except.ok ((b.etag t e).json (Json.obj [("data", v)]))

/-- All values carried by headers of a given name, in order. -/
def headersFor (hs : List (String × String)) (name : String) : List String :=
  (hs.filter (fun p => p.1 == name)).map (fun p => p.2)

/-! ## The tag-string format -/

/-- Is `c` an ASCII decimal digit? -/
def isDigitChar (c : Char) : Bool :=
  48 ≤ c.toNat && c.toNat ≤ 57

/-- Numeric value of a digit list (base 10, most significant first). -/
def parseDigits (l : List Char) : Nat :=
  l.foldl (fun a c => a * 10 + (c.toNat - 48)) 0

/-- A digit list has no leading zero beyond the natural representation of
zero: if it starts with `'0'` it is exactly `['0']`. -/
def noLeadingZero (l : List Char) : Bool :=
  match l with
  | [] => true
  | c :: rest => !(c == '0') || rest.isEmpty

/-- The full tag-string format of claim C2: the character list splits at a
unique `';'` into two nonempty digit strings without leading zeros that parse
back to the two fingerprints; every character is a digit or the separator, and
none is whitespace or a quote. -/
def TagFormatOk (s : List Char) (p g : Nat) : Prop :=
  ∃ d1 d2 : List Char,
    s = d1 ++ ';' :: d2 ∧
    d1.isEmpty = false ∧ d2.isEmpty = false ∧
    d1.all isDigitChar = true ∧ d2.all isDigitChar = true ∧
    d1.contains ';' = false ∧ d2.contains ';' = false ∧
    s.all (fun c => isDigitChar c || c == ';') = true ∧
    s.all (fun c => !c.isWhitespace && c != '\"') = true ∧
    noLeadingZero d1 = true ∧ noLeadingZero d2 = true ∧
    parseDigits d1 = p ∧ parseDigits d2 = g

/-! ## A concrete entity with an overridden `patch_part`

The spec's end-to-end scenario 1: an entity `{id, name, score}` whose `score`
field is not patchable, so `patch_part` is overridden to hash only `id` and
`name`. -/

/-- The eight little-endian bytes a `u64` feeds into a hasher. -/
def u64Bytes (n : Nat) : List Nat :=
  [n % 256, n / 256 % 256, n / 256 ^ 2 % 256, n / 256 ^ 3 % 256,
   n / 256 ^ 4 % 256, n / 256 ^ 5 % 256, n / 256 ^ 6 % 256, n / 256 ^ 7 % 256]

/-- The scenario entity: `id` and `name` are patchable, `score` is not.  The
`name` is carried as its UTF-8 bytes. -/
structure Entity where
  id : Nat
  name : List Nat
  score : Nat

/-- The byte stream of the entity's full state (its derived `Hash`
implementation: each field in declaration order, strings followed by the
`0xff` terminator byte). -/
def Entity.fullStream (e : Entity) : List Nat :=
  u64Bytes e.id ++ e.name ++ [0xff] ++ u64Bytes e.score

/-- The byte stream of only the patchable fields (`id` and `name`). -/
def Entity.patchStream (e : Entity) : List Nat :=
  u64Bytes e.id ++ e.name ++ [0xff]

/-- The `impl Taggable for Entity` that overrides `patch_part` to hash only
the patchable subset, as the trait documentation instructs. -/
def entityTaggable : Taggable Entity :=
  { hash := Entity.fullStream
    patch_part := fun e => defaultHasherFinish e.patchStream }

/-! ## Sanity examples -/

example : decimal 0 = "0" := by
  simp [decimal, decimalDigits, digitChar]

example : decimal 1234567890 = "1234567890" := by
  simp [decimal, decimalDigits, digitChar]

example : (Taggable.mkDefault (fun _ : Unit => [])).get_part () =
    defaultHasherFinish [] := by rfl

/-! ## Helper lemmas -/

theorem get_part_eq {E : Type} (t : Taggable E) (e : E) :
    t.get_part e = defaultHasherFinish (t.hash e) := rfl

theorem mkDefault_hash {E : Type} (h : E → List Nat) :
    (Taggable.mkDefault h).hash = h := rfl

theorem mkDefault_patch_part {E : Type} (h : E → List Nat) (e : E) :
    (Taggable.mkDefault h).patch_part e = defaultHasherFinish (h e) := rfl

theorem defaultHasherFinish_lt (bytes : List Nat) :
    defaultHasherFinish bytes < 2 ^ 64 :=
  Nat.mod_lt _ (by norm_num)

theorem get_part_lt {E : Type} (t : Taggable E) (e : E) :
    t.get_part e < 2 ^ 64 :=
  defaultHasherFinish_lt _

theorem digitChar_isDigit (d : Nat) (h : d < 10) : isDigitChar (digitChar d) = true := by
  interval_cases d <;> rfl

theorem digitChar_toNat (d : Nat) (h : d < 10) : (digitChar d).toNat = 48 + d := by
  interval_cases d <;> rfl

theorem decimalDigits_ne_nil (n : Nat) : decimalDigits n ≠ [] := by
  rw [decimalDigits]
  split
  · simp
  · simp

theorem decimalDigits_all_digits (n : Nat) : (decimalDigits n).all isDigitChar = true := by
  induction n using Nat.strong_induction_on with
  | _ n ih =>
    rw [decimalDigits]
    split
    · next h =>
      simpa using digitChar_isDigit n h
    · next h =>
      rw [List.all_append]
      have h1 := ih (n / 10) (Nat.div_lt_self (by omega) (by omega))
      have h2 := digitChar_isDigit (n % 10) (Nat.mod_lt _ (by omega))
      simp [h1, h2]

theorem decimalDigits_head_ne_zero (n : Nat) (hn : n ≠ 0) :
    (decimalDigits n).head? ≠ some '0' := by
  induction n using Nat.strong_induction_on with
  | _ n ih =>
    rw [decimalDigits]
    split
    · next h =>
      interval_cases n <;> simp_all <;> decide
    · next h =>
      obtain ⟨a, as, ha⟩ := List.exists_cons_of_ne_nil (decimalDigits_ne_nil (n / 10))
      have hd : n / 10 ≠ 0 := by
        have : 0 < n / 10 := Nat.div_pos (by omega) (by omega)
        omega
      have := ih (n / 10) (Nat.div_lt_self (by omega) (by omega)) hd
      rw [ha] at this ⊢
      simpa using this

theorem noLeadingZero_decimalDigits (n : Nat) : noLeadingZero (decimalDigits n) = true := by
  by_cases hn : n = 0
  · subst hn
    rw [decimalDigits]
    rfl
  · have hh := decimalDigits_head_ne_zero n hn
    obtain ⟨a, as, ha⟩ := List.exists_cons_of_ne_nil (decimalDigits_ne_nil n)
    rw [ha] at hh ⊢
    simp only [List.head?_cons, ne_eq, Option.some.injEq] at hh
    simp [noLeadingZero, hh]

theorem parseDigits_append_digit (l : List Char) (c : Char) :
    parseDigits (l ++ [c]) = parseDigits l * 10 + (c.toNat - 48) := by
  simp [parseDigits, List.foldl_append]

theorem parseDigits_decimalDigits (n : Nat) : parseDigits (decimalDigits n) = n := by
  induction n using Nat.strong_induction_on with
  | _ n ih =>
    rw [decimalDigits]
    split
    · next h =>
      simp [parseDigits, digitChar_toNat n h]
    · next h =>
      rw [parseDigits_append_digit]
      rw [ih (n / 10) (Nat.div_lt_self (by omega) (by omega))]
      rw [digitChar_toNat (n % 10) (Nat.mod_lt _ (by omega))]
      omega

theorem all_digits_not_contains_semi (l : List Char) (h : l.all isDigitChar = true) :
    l.contains ';' = false := by
  rw [Bool.eq_false_iff]
  intro hc
  rw [List.contains_eq_any_beq] at hc
  rw [List.any_eq_true] at hc
  obtain ⟨c, hmem, hcc⟩ := hc
  rw [List.all_eq_true] at h
  have := h c hmem
  rw [beq_iff_eq] at hcc
  subst hcc
  simp [isDigitChar] at this

theorem isDigitChar_bounds (c : Char) (h : isDigitChar c = true) :
    48 ≤ c.toNat ∧ c.toNat ≤ 57 := by
  simpa [isDigitChar] using h

theorem char_bounds_not_whitespace (c : Char) (h1 : 48 ≤ c.toNat) (h2 : c.toNat ≤ 59) :
    c.isWhitespace = false := by
  rw [Bool.eq_false_iff]
  intro hw
  have h : ((c = ' ' ∨ c = '\t') ∨ c = '\x0d') ∨ c = '\n' := by
    simpa [Char.isWhitespace] using hw
  rcases h with ((h | h) | h) | h <;> subst h <;> revert h1 h2 <;> decide

theorem char_bounds_ne_quote (c : Char) (h1 : 48 ≤ c.toNat) (h2 : c.toNat ≤ 59) :
    (c != '\"') = true := by
  rw [bne_iff_ne]
  intro h
  subst h
  revert h1
  decide

theorem digit_or_semi_bounds (c : Char)
    (h : (isDigitChar c || c == ';') = true) : 48 ≤ c.toNat ∧ c.toNat ≤ 59 := by
  rw [Bool.or_eq_true] at h
  rcases h with h | h
  · have := isDigitChar_bounds c h
    omega
  · rw [beq_iff_eq] at h
    subst h
    decide

theorem all_digits_imp_digit_or_semi (l : List Char) (h : l.all isDigitChar = true) :
    l.all (fun c => isDigitChar c || c == ';') = true := by
  rw [List.all_eq_true] at h ⊢
  intro c hc
  rw [Bool.or_eq_true]
  exact Or.inl (h c hc)

theorem etag_string_data {E : Type} (t : Taggable E) (e : E) :
    (t.etag_string e).data =
      decimalDigits (t.patch_part e) ++ ';' :: decimalDigits (t.get_part e) := by
  show (decimal (t.patch_part e) ++ ";" ++ decimal (t.get_part e)).data = _
  rw [String.data_append, String.data_append, List.append_assoc]
  rfl

theorem etag_chars_digit_or_semi {E : Type} (t : Taggable E) (e : E) :
    (t.etag_string e).data.all (fun c => isDigitChar c || c == ';') = true := by
  rw [etag_string_data, List.all_append, Bool.and_eq_true, List.all_cons, Bool.and_eq_true]
  refine ⟨all_digits_imp_digit_or_semi _ (decimalDigits_all_digits _), ?_,
    all_digits_imp_digit_or_semi _ (decimalDigits_all_digits _)⟩
  rfl

theorem etag_chars_safe {E : Type} (t : Taggable E) (e : E) :
    (t.etag_string e).data.all (fun c => !c.isWhitespace && c != '\"') = true := by
  have hall := etag_chars_digit_or_semi t e
  rw [List.all_eq_true] at hall ⊢
  intro c hc
  have hb := digit_or_semi_bounds c (hall c hc)
  rw [Bool.and_eq_true]
  constructor
  · rw [char_bounds_not_whitespace c hb.1 hb.2]
    rfl
  · exact char_bounds_ne_quote c hb.1 hb.2

/-! ## The claims -/

/-- C1: for every entity type that keeps the trait's default `patch_part`
(no override), `patch_part(E) == get_part(E)` for every entity state `E`. -/
theorem etag_C1 {E : Type} (h : E → List Nat) (e : E) :
    (Taggable.mkDefault h).patch_part e = (Taggable.mkDefault h).get_part e := rfl

/-- C2: for every entity state, `etag_string` is the decimal representation of
`patch_part`, a single `';'`, and the decimal representation of `get_part`:
it matches `^\d+;\d+$`, has no whitespace or quotes, no leading zeros beyond
the natural representation of 0, and its two components parse back to
`patch_part` and `get_part`. -/
theorem etag_C2 {E : Type} (t : Taggable E) (e : E) :
    TagFormatOk (t.etag_string e).data (t.patch_part e) (t.get_part e) := by
  obtain ⟨a1, as1, h1⟩ :=
    List.exists_cons_of_ne_nil (decimalDigits_ne_nil (t.patch_part e))
  obtain ⟨a2, as2, h2⟩ :=
    List.exists_cons_of_ne_nil (decimalDigits_ne_nil (t.get_part e))
  refine ⟨decimalDigits (t.patch_part e), decimalDigits (t.get_part e),
    etag_string_data t e, ?_, ?_,
    decimalDigits_all_digits _, decimalDigits_all_digits _,
    all_digits_not_contains_semi _ (decimalDigits_all_digits _),
    all_digits_not_contains_semi _ (decimalDigits_all_digits _),
    etag_chars_digit_or_semi t e, etag_chars_safe t e,
    noLeadingZero_decimalDigits _, noLeadingZero_decimalDigits _,
    parseDigits_decimalDigits _, parseDigits_decimalDigits _⟩
  · rw [h1]
    rfl
  · rw [h2]
    rfl

/-- C3 as stated is false: `get_part` is a 64-bit fingerprint, so on an
entity type with infinitely many observable states it cannot be injective —
two distinct states must collide, refuting the "only if" direction of the
claimed equivalence.  Shown on the entity type `List Nat` whose `Hash`
implementation feeds the list itself to the hasher. -/
theorem etag_C3_counterexample :
    ¬ ∀ e1 e2 : List Nat,
        (Taggable.mkDefault (fun l => l)).get_part e1 =
            (Taggable.mkDefault (fun l => l)).get_part e2 ↔
          e1 = e2 := by
  intro hAll
  obtain ⟨x, y, hne, heq⟩ :=
    Finite.exists_ne_map_eq_of_infinite
      (fun l : List Nat =>
        (⟨(Taggable.mkDefault (fun l => l)).get_part l,
          get_part_lt (Taggable.mkDefault (fun l => l)) l⟩ : Fin (2 ^ 64)))
  exact hne ((hAll x y).mp (congrArg Fin.val heq))

/-- C3 amended: the "if" direction holds — entity states that agree on all
observable fields (i.e. feed the same byte stream to the hasher) always yield
equal `get_part` values; the converse cannot hold for every entity type. -/
theorem etag_C3_amended {E : Type} (t : Taggable E) (e1 e2 : E)
    (h : t.hash e1 = t.hash e2) : t.get_part e1 = t.get_part e2 := by
  rw [get_part_eq, get_part_eq, h]

/-- Witness for the amended C3 at a concrete input. -/
theorem etag_C3_witness :
    (Taggable.mkDefault (fun _ : Nat => [7])).hash 0 =
        (Taggable.mkDefault (fun _ : Nat => [7])).hash 1 ∧
      (Taggable.mkDefault (fun _ : Nat => [7])).get_part 0 =
        (Taggable.mkDefault (fun _ : Nat => [7])).get_part 1 :=
  ⟨rfl, etag_C3_amended (Taggable.mkDefault (fun _ : Nat => [7])) 0 1 rfl⟩

/-- C4: when serialization of the entity fails, `json_with_etag` propagates
the failure unchanged to the caller — no catching, translation, retry or
recovery. -/
theorem etag_C4 {E : Type} (b : HttpResponseBuilder) (t : Taggable E)
    (ser : E → Except String Json) (e : E) (err : String)
    (h : ser e = Except.error err) :
    b.json_with_etag t ser e = Except.error err := by
  simp [HttpResponseBuilder.json_with_etag, h]

/-- Witness for C4 at a concrete input: a serializer that fails with
`"boom"`. -/
theorem etag_C4_witness :
    (fun _ : Unit => (Except.error "boom" : Except String Json)) () =
        Except.error "boom" ∧
      HttpResponseBuilder.json_with_etag ⟨[]⟩ (Taggable.mkDefault (fun _ => []))
          (fun _ => Except.error "boom") () =
        Except.error "boom" :=
  ⟨rfl,
    etag_C4 ⟨[]⟩ (Taggable.mkDefault (fun _ => []))
      (fun _ => Except.error "boom") () "boom" rfl⟩

/-- C5: on successful serialization, `json_with_etag` first attaches the
`ETag` header (exactly `etag_string`) and finalizes a response whose JSON
body has exactly the top-level key `"data"`, holding the entity's independent
serialization. -/
theorem etag_C5 {E : Type} (b : HttpResponseBuilder) (t : Taggable E)
    (ser : E → Except String Json) (e : E) (v : Json)
    (h : ser e = Except.ok v) :
    b.json_with_etag t ser e =
        Except.ok ((b.etag t e).json (Json.obj [("data", v)])) ∧
      ∀ r : HttpResponse, b.json_with_etag t ser e = Except.ok r →
        r.headers = b.headers ++ [("ETag", t.etag_string e)] ∧
          r.body.topLevelKeys = some ["data"] ∧
          r.body.getField "data" = some v := by
  have hok : b.json_with_etag t ser e =
      Except.ok ((b.etag t e).json (Json.obj [("data", v)])) := by
    simp [HttpResponseBuilder.json_with_etag, h]
  refine ⟨hok, ?_⟩
  intro r hr
  rw [hok] at hr
  injection hr with hr
  subst hr
  refine ⟨rfl, rfl, ?_⟩
  simp [Json.getField, HttpResponseBuilder.json]

/-- Witness for C5 at a concrete input. -/
theorem etag_C5_witness :
    (fun _ : Unit => (Except.ok (Json.num 7) : Except String Json)) () =
        Except.ok (Json.num 7) ∧
      HttpResponseBuilder.json_with_etag ⟨[]⟩ (Taggable.mkDefault (fun _ => []))
          (fun _ => Except.ok (Json.num 7)) () =
        Except.ok
          ((HttpResponseBuilder.etag ⟨[]⟩ (Taggable.mkDefault (fun _ => [])) ()).json
            (Json.obj [("data", Json.num 7)])) :=
  ⟨rfl,
    (etag_C5 ⟨[]⟩ (Taggable.mkDefault (fun _ => []))
      (fun _ => Except.ok (Json.num 7)) () (Json.num 7) rfl).1⟩

/-- C6: `etag` appends exactly the header `("ETag", etag_string)` to the
builder and leaves every other header untouched; the augmented builder is
returned for further chaining. -/
theorem etag_C6 {E : Type} (b : HttpResponseBuilder) (t : Taggable E) (e : E) :
    (b.etag t e).headers = b.headers ++ [("ETag", t.etag_string e)] ∧
      headersFor (b.etag t e).headers "ETag" =
        headersFor b.headers "ETag" ++ [t.etag_string e] ∧
      ∀ name : String, name ≠ "ETag" →
        headersFor (b.etag t e).headers name = headersFor b.headers name := by
  refine ⟨rfl, ?_, ?_⟩
  · simp [headersFor, HttpResponseBuilder.etag, HttpResponseBuilder.header,
      List.filter_append]
  · intro name hname
    have hfalse : ("ETag" == name) = false := by
      rw [beq_eq_false_iff_ne]
      exact fun hcontra => hname hcontra.symm
    simp [headersFor, HttpResponseBuilder.etag, HttpResponseBuilder.header,
      List.filter_append, hfalse]

/-- Witness for C6 at a concrete input: a builder that already carries a
`Content-Type` header, which `etag` leaves untouched. -/
theorem etag_C6_witness :
    "Content-Type" ≠ "ETag" ∧
      headersFor
          (HttpResponseBuilder.etag ⟨[("Content-Type", "application/json")]⟩
            (Taggable.mkDefault (fun _ : Unit => [])) ()).headers "Content-Type" =
        headersFor [("Content-Type", "application/json")] "Content-Type" :=
  ⟨by decide,
    (etag_C6 ⟨[("Content-Type", "application/json")]⟩
      (Taggable.mkDefault (fun _ : Unit => [])) ()).2.2 "Content-Type" (by decide)⟩

/-- C7: `get_part`, `patch_part` and `etag_string` are deterministic pure
functions of the entity's state — recomputing them on the same state yields
the same value, and states equal under the hashing equality (identical byte
streams) yield identical tags for a default-`patch_part` entity, as a restart
or re-fetch would. -/
theorem etag_C7 {E F : Type} (t : Taggable E) (h : F → List Nat) (e : E)
    (e1 e2 : F) (hh : h e1 = h e2) :
    t.get_part e = t.get_part e ∧ t.patch_part e = t.patch_part e ∧
      t.etag_string e = t.etag_string e ∧
      (Taggable.mkDefault h).etag_string e1 = (Taggable.mkDefault h).etag_string e2 := by
  refine ⟨rfl, rfl, rfl, ?_⟩
  simp only [Taggable.etag_string, mkDefault_patch_part, get_part_eq,
    mkDefault_hash, hh]

/-- Witness for C7 at a concrete input: two distinct states feeding the same
byte stream. -/
theorem etag_C7_witness :
    (fun _ : Nat => [5]) 0 = (fun _ : Nat => [5]) 1 ∧
      (entityTaggable.get_part ⟨1, [97], 2⟩ = entityTaggable.get_part ⟨1, [97], 2⟩ ∧
        entityTaggable.patch_part ⟨1, [97], 2⟩ = entityTaggable.patch_part ⟨1, [97], 2⟩ ∧
        entityTaggable.etag_string ⟨1, [97], 2⟩ = entityTaggable.etag_string ⟨1, [97], 2⟩ ∧
        (Taggable.mkDefault (fun _ : Nat => [5])).etag_string 0 =
          (Taggable.mkDefault (fun _ : Nat => [5])).etag_string 1) :=
  ⟨rfl, etag_C7 entityTaggable (fun _ : Nat => [5]) ⟨1, [97], 2⟩ 0 1 rfl⟩

/-- C8: for the scenario entity whose `patch_part` is overridden to hash only
the patchable fields `id` and `name`, any two states differing only in
`score` yield equal `patch_part` values, while their `get_part` values can
differ (shown at a concrete pair). -/
theorem etag_C8 :
    (∀ e1 e2 : Entity, e1.id = e2.id → e1.name = e2.name →
        entityTaggable.patch_part e1 = entityTaggable.patch_part e2) ∧
      ∃ e1 e2 : Entity, e1.id = e2.id ∧ e1.name = e2.name ∧ e1.score ≠ e2.score ∧
        entityTaggable.patch_part e1 = entityTaggable.patch_part e2 ∧
        entityTaggable.get_part e1 ≠ entityTaggable.get_part e2 := by
  constructor
  · intro e1 e2 hid hname
    show defaultHasherFinish e1.patchStream = defaultHasherFinish e2.patchStream
    simp [Entity.patchStream, hid, hname]
  · exact ⟨⟨1, [97, 98, 99], 10⟩, ⟨1, [97, 98, 99], 20⟩, rfl, rfl, by decide,
      rfl, by decide⟩

/-- Witness for C8 at a concrete input: the spec's scenario with `score`
changed from 10 to 20. -/
theorem etag_C8_witness :
    (⟨1, [97, 98, 99], 10⟩ : Entity).id = (⟨1, [97, 98, 99], 20⟩ : Entity).id ∧
      (⟨1, [97, 98, 99], 10⟩ : Entity).name = (⟨1, [97, 98, 99], 20⟩ : Entity).name ∧
      entityTaggable.patch_part ⟨1, [97, 98, 99], 10⟩ =
        entityTaggable.patch_part ⟨1, [97, 98, 99], 20⟩ :=
  ⟨rfl, rfl, etag_C8.1 ⟨1, [97, 98, 99], 10⟩ ⟨1, [97, 98, 99], 20⟩ rfl rfl⟩

/-- C9: the three operations are total with no error conditions — `get_part`
and the default `patch_part` always return a value in the `u64` range, and
`etag_string` is a nonempty string of digits and one semicolon, so header
assignment with it cannot fail. -/
theorem etag_C9 {E : Type} (t : Taggable E) (h : E → List Nat) (e : E) :
    t.get_part e < 2 ^ 64 ∧
      (Taggable.mkDefault h).patch_part e < 2 ^ 64 ∧
      (t.etag_string e).data.isEmpty = false ∧
      (t.etag_string e).data.all (fun c => isDigitChar c || c == ';') = true := by
  refine ⟨get_part_lt t e, ?_, ?_, etag_chars_digit_or_semi t e⟩
  · rw [mkDefault_patch_part]
    exact defaultHasherFinish_lt _
  · rw [etag_string_data]
    obtain ⟨a, as, ha⟩ :=
      List.exists_cons_of_ne_nil (decimalDigits_ne_nil (t.patch_part e))
    rw [ha]
    rfl

/-- C10: the tag depends only on the byte stream fed to the hasher — two
entities of possibly different types and with arbitrary (unused) serializers
that feed identical byte streams get identical `get_part`, default
`patch_part` and `etag_string`; consequently `json_with_etag` emits identical
headers for them regardless of the serialized bodies. -/
theorem etag_C10 {E1 E2 : Type} (h1 : E1 → List Nat) (h2 : E2 → List Nat)
    (s1 : E1 → Except String Json) (s2 : E2 → Except String Json)
    (e1 : E1) (e2 : E2) (hh : h1 e1 = h2 e2) :
    (Taggable.mkDefault h1).get_part e1 = (Taggable.mkDefault h2).get_part e2 ∧
      (Taggable.mkDefault h1).patch_part e1 = (Taggable.mkDefault h2).patch_part e2 ∧
      (Taggable.mkDefault h1).etag_string e1 = (Taggable.mkDefault h2).etag_string e2 ∧
      ∀ (b : HttpResponseBuilder) (v1 v2 : Json),
        s1 e1 = Except.ok v1 → s2 e2 = Except.ok v2 →
        ∃ r1 r2 : HttpResponse,
          b.json_with_etag (Taggable.mkDefault h1) s1 e1 = Except.ok r1 ∧
          b.json_with_etag (Taggable.mkDefault h2) s2 e2 = Except.ok r2 ∧
          r1.headers = r2.headers := by
  have he : (Taggable.mkDefault h1).etag_string e1 =
      (Taggable.mkDefault h2).etag_string e2 := by
    simp only [Taggable.etag_string, mkDefault_patch_part, get_part_eq,
      mkDefault_hash, hh]
  refine ⟨by simp only [get_part_eq, mkDefault_hash, hh],
    by simp only [mkDefault_patch_part, hh], he, ?_⟩
  intro b v1 v2 hv1 hv2
  refine ⟨(b.etag (Taggable.mkDefault h1) e1).json (Json.obj [("data", v1)]),
    (b.etag (Taggable.mkDefault h2) e2).json (Json.obj [("data", v2)]),
    by simp [HttpResponseBuilder.json_with_etag, hv1],
    by simp [HttpResponseBuilder.json_with_etag, hv2], ?_⟩
  simp [HttpResponseBuilder.json, HttpResponseBuilder.etag,
    HttpResponseBuilder.header, he]

/-- Witness for C10 at a concrete input: entities of different types and with
different serializers feeding the same byte stream. -/
theorem etag_C10_witness :
    (fun _ : Unit => [9]) () = (fun _ : Nat => [9]) 0 ∧
      ((Taggable.mkDefault (fun _ : Unit => [9])).get_part () =
          (Taggable.mkDefault (fun _ : Nat => [9])).get_part 0 ∧
        (Taggable.mkDefault (fun _ : Unit => [9])).patch_part () =
          (Taggable.mkDefault (fun _ : Nat => [9])).patch_part 0 ∧
        (Taggable.mkDefault (fun _ : Unit => [9])).etag_string () =
          (Taggable.mkDefault (fun _ : Nat => [9])).etag_string 0 ∧
        ∀ (b : HttpResponseBuilder) (v1 v2 : Json),
          (fun _ : Unit => (Except.ok Json.null : Except String Json)) () =
            Except.ok v1 →
          (fun _ : Nat => (Except.ok (Json.num 3) : Except String Json)) 0 =
            Except.ok v2 →
          ∃ r1 r2 : HttpResponse,
            b.json_with_etag (Taggable.mkDefault (fun _ : Unit => [9]))
                (fun _ => Except.ok Json.null) () = Except.ok r1 ∧
            b.json_with_etag (Taggable.mkDefault (fun _ : Nat => [9]))
                (fun _ => Except.ok (Json.num 3)) 0 = Except.ok r2 ∧
            r1.headers = r2.headers) :=
  ⟨rfl,
    etag_C10 (fun _ : Unit => [9]) (fun _ : Nat => [9])
      (fun _ => Except.ok Json.null) (fun _ => Except.ok (Json.num 3)) () 0 rfl⟩
